import Mathlib

/-
Shallow embedding of src/i2s.rs of the stm32f4xx-hal repository:
I2S pin-capability registry (which GPIO pin, in which alternate function,
may serve which I2S role for which SPI peripheral on which STM32F4 chip
variant), the Pins validator for a (WS, CK, MCLK, SD) tuple, and the
three-step RCC clock-enable / reset-pulse sequence of Enable::enable.
-/

namespace I2s

/-- The STM32F4 chip variants (Cargo feature gates) named in src/i2s.rs. -/
inductive Variant
  | stm32f401 | stm32f405 | stm32f407 | stm32f410 | stm32f411 | stm32f412
  | stm32f413 | stm32f415 | stm32f417 | stm32f423 | stm32f427 | stm32f429
  | stm32f437 | stm32f439 | stm32f446 | stm32f469 | stm32f479
  deriving DecidableEq, Fintype, Repr

/-- The SPI peripheral instances usable in I2S mode (crate::pac::SPI1..SPI5). -/
inductive Periph
  | SPI1 | SPI2 | SPI3 | SPI4 | SPI5
  deriving DecidableEq, Fintype, Repr

/-- The GPIO pins named in src/i2s.rs, plus PA7 (a typical SPI1 MOSI pin of
the underlying SPI driver, used to state the data-line-only scenario). -/
inductive Pin
  | PA3 | PA4 | PA6 | PA7 | PA11 | PA15
  | PB1 | PB4 | PB9 | PB10 | PB12
  | PC4 | PC6 | PC7
  | PD1
  | PE4 | PE11
  | PI0
  deriving DecidableEq, Fintype, Repr

/-- A pin together with the alternate function (AF0..AF15) it is placed in:
the type PXn of crate::gpio. -/
structure AltPin where
  pin : Pin
  af : Fin 16
  deriving DecidableEq, Fintype, Repr

/-- One line of a pin_mck! or pin_ws! invocation: the trait impl it
expands to, guarded by the cfg feature list of the enclosing module. -/
structure Fact where
  variants : List Variant
  periph : Periph
  pin : Pin
  af : Fin 16
  deriving DecidableEq, Repr

/-- All seventeen chip variants (modules with no cfg attribute). -/
def allVariants : List Variant :=
  [.stm32f401, .stm32f405, .stm32f407, .stm32f410, .stm32f411, .stm32f412,
   .stm32f413, .stm32f415, .stm32f417, .stm32f423, .stm32f427, .stm32f429,
   .stm32f437, .stm32f439, .stm32f446, .stm32f469, .stm32f479]

/-- The sixteen-variant cfg list that excludes stm32f410. -/
def allExceptF410 : List Variant :=
  [.stm32f401, .stm32f405, .stm32f407, .stm32f411, .stm32f412,
   .stm32f413, .stm32f415, .stm32f417, .stm32f423, .stm32f427, .stm32f429,
   .stm32f437, .stm32f439, .stm32f446, .stm32f469, .stm32f479]

/-- The PinMck impls of mod mck_pins, one Fact per pin_mck! line, with the
enclosing module's cfg feature list. -/
def mckFacts : List Fact :=
  [ -- mod common (all models): SPI2 => PC6<AF5>
    ⟨allVariants, .SPI2, .PC6, 5⟩,
    -- mod pa3_pa6_pb10 (f411, f412, f413, f423)
    ⟨[.stm32f411, .stm32f412, .stm32f413, .stm32f423], .SPI2, .PA3, 5⟩,
    ⟨[.stm32f411, .stm32f412, .stm32f413, .stm32f423], .SPI2, .PA6, 6⟩,
    ⟨[.stm32f411, .stm32f412, .stm32f413, .stm32f423], .SPI3, .PB10, 6⟩,
    -- mod pc4_af5 (f412, f413, f423, f446)
    ⟨[.stm32f412, .stm32f413, .stm32f423, .stm32f446], .SPI1, .PC4, 5⟩,
    -- mod i2s3_pc7_af6 (all models except f410)
    ⟨allExceptF410, .SPI3, .PC7, 6⟩,
    -- mod i2s1_pc7_af6 (f410 only)
    ⟨[.stm32f410], .SPI1, .PC7, 6⟩,
    ⟨[.stm32f410], .SPI1, .PB10, 6⟩ ]

/-- The PinWs impls of mod ws_pins, one Fact per pin_ws! line, with the
enclosing module's cfg feature list. -/
def wsFacts : List Fact :=
  [ -- mod common (all models)
    ⟨allVariants, .SPI2, .PB9, 5⟩,
    ⟨allVariants, .SPI2, .PB12, 5⟩,
    -- mod not_f410 (all models except f410)
    ⟨allExceptF410, .SPI3, .PA4, 6⟩,
    ⟨allExceptF410, .SPI3, .PA15, 6⟩,
    -- mod pa4_af5_pa15_af5 (f410, f411, f412, f413, f423, f446)
    ⟨[.stm32f410, .stm32f411, .stm32f412, .stm32f413, .stm32f423, .stm32f446],
      .SPI1, .PA4, 5⟩,
    ⟨[.stm32f410, .stm32f411, .stm32f412, .stm32f413, .stm32f423, .stm32f446],
      .SPI1, .PA15, 5⟩,
    -- mod pb12_pe4_pe11 (f411, f412, f413, f423)
    ⟨[.stm32f411, .stm32f412, .stm32f413, .stm32f423], .SPI4, .PB12, 6⟩,
    ⟨[.stm32f411, .stm32f412, .stm32f413, .stm32f423], .SPI4, .PE4, 5⟩,
    ⟨[.stm32f411, .stm32f412, .stm32f413, .stm32f423], .SPI4, .PE11, 5⟩,
    ⟨[.stm32f411, .stm32f412, .stm32f413, .stm32f423], .SPI5, .PE4, 6⟩,
    ⟨[.stm32f411, .stm32f412, .stm32f413, .stm32f423], .SPI5, .PE11, 6⟩,
    -- mod pa11 (f413, f423)
    ⟨[.stm32f413, .stm32f423], .SPI2, .PA11, 5⟩,
    -- mod pb1 (f410, f411, f412, f413, f423)
    ⟨[.stm32f410, .stm32f411, .stm32f412, .stm32f413, .stm32f423], .SPI5, .PB1, 6⟩,
    -- mod pb4_pd1 (f446 only)
    ⟨[.stm32f446], .SPI2, .PB4, 7⟩,
    ⟨[.stm32f446], .SPI2, .PD1, 7⟩,
    -- mod pi0 (f405, f407, f415, f417, f427, f429, f437, f439, f469, f479)
    ⟨[.stm32f405, .stm32f407, .stm32f415, .stm32f417, .stm32f427, .stm32f429,
      .stm32f437, .stm32f439, .stm32f469, .stm32f479], .SPI2, .PI0, 5⟩ ]

/-- Whether a fact list grants pin q the role for peripheral spi when the
crate is compiled for variant v: some macro line of a cfg-active module
names exactly this (peripheral, pin, alternate function). -/
def holdsFor (facts : List Fact) (v : Variant) (spi : Periph) (q : AltPin) : Bool :=
  facts.any fun f =>
    decide (v ∈ f.variants) && f.periph == spi && f.pin == q.pin && f.af == q.af

/-- The trait PinWs: pin q may be the word select line of spi (mod ws_pins). -/
def PinWs (v : Variant) (spi : Periph) (q : AltPin) : Bool :=
  holdsFor wsFacts v spi q

/-- The trait PinMck for real pins: q may be the master clock output of spi
(mod mck_pins). -/
def PinMck (v : Variant) (spi : Periph) (q : AltPin) : Bool :=
  holdsFor mckFacts v spi q

/-- The blanket impl at src/i2s.rs line 21: each MOSI pin of the underlying
SPI driver can also be used as SD. The PinMosi facts live in src/spi.rs,
outside this file, so they enter as the parameter mosi. -/
def PinSd (mosi : Periph → AltPin → Bool) (spi : Periph) (q : AltPin) : Bool :=
  mosi spi q

/-- The blanket impl at src/i2s.rs line 23: each SCK pin of the underlying
SPI driver can also be used as CK. The PinSck facts live in src/spi.rs,
outside this file, so they enter as the parameter sck. -/
def PinCk (sck : Periph → AltPin → Bool) (spi : Periph) (q : AltPin) : Bool :=
  sck spi q

/-- The cfg feature list of the per-peripheral module (mod spi1 .. mod spi5)
that holds both the Enable impl and the PinMck impl for NoMasterClock. -/
def spiModGate : Periph → List Variant
  | .SPI1 => [.stm32f410, .stm32f411, .stm32f412, .stm32f413, .stm32f423, .stm32f446]
  | .SPI2 => allVariants
  | .SPI3 => allExceptF410
  | .SPI4 => [.stm32f411, .stm32f412, .stm32f413, .stm32f423]
  | .SPI5 => [.stm32f410, .stm32f411, .stm32f412, .stm32f413, .stm32f423]

/-- Whether impl Enable for the peripheral is compiled in for variant v. -/
def hasEnableImpl (v : Variant) (spi : Periph) : Bool :=
  decide (v ∈ spiModGate spi)

/-- Whether impl PinMck for NoMasterClock is compiled in for variant v:
it sits in the same cfg-gated module as the Enable impl. -/
def noMasterClockPinMck (v : Variant) (spi : Periph) : Bool :=
  decide (v ∈ spiModGate spi)

/-- The MCLK position of a pin tuple: a real pin, or the placeholder
struct NoMasterClock for when the MCLK pin is not needed. -/
inductive MckArg
  | pin (q : AltPin)
  | noMasterClock
  deriving DecidableEq, Repr

/-- The PinMck bound resolved for either kind of MCLK argument. -/
def PinMckArg (v : Variant) (spi : Periph) : MckArg → Bool
  | .pin q => PinMck v spi q
  | .noMasterClock => noMasterClockPinMck v spi

/-- The trait Pins for a tuple (WS, CK, MCLK, SD): the impl at src/i2s.rs
lines 35-42 requires PinWs, PinCk, PinMck and PinSd for the four positions. -/
def Pins (mosi sck : Periph → AltPin → Bool) (v : Variant) (spi : Periph)
    (ws ck : AltPin) (mclk : MckArg) (sd : AltPin) : Bool :=
  PinWs v spi ws && PinCk sck spi ck && PinMckArg v spi mclk && PinSd mosi spi sd

/-- The RCC registers touched by the Enable impls. -/
inductive Reg
  | apb1enr | apb1rstr | apb2enr | apb2rstr
  deriving DecidableEq, Fintype, Repr

/-- One call of the bit-banding helpers: bb::set or bb::clear on a register
and bit index. -/
inductive Op
  | set (r : Reg) (b : Nat)
  | clear (r : Reg) (b : Nat)
  deriving DecidableEq, Repr

/-- The (register, bit) pair an operation modifies. -/
def Op.target : Op → Reg × Nat
  | .set r b => (r, b)
  | .clear r b => (r, b)

/-- The bit index an operation modifies. -/
def Op.bitIdx : Op → Nat
  | .set _ b => b
  | .clear _ b => b

/-- The body of fn enable for each Enable impl, as the exact list of register
operations it issues, in program order (SPI_BIT is 12, 14, 15, 13, 20). -/
def enable : Periph → List Op
  | .SPI1 => [.set .apb2enr 12, .set .apb2rstr 12, .clear .apb2rstr 12]
  | .SPI2 => [.set .apb1enr 14, .set .apb1rstr 14, .clear .apb1rstr 14]
  | .SPI3 => [.set .apb1enr 15, .set .apb1rstr 15, .clear .apb1rstr 15]
  | .SPI4 => [.set .apb2enr 13, .set .apb2rstr 13, .clear .apb2rstr 13]
  | .SPI5 => [.set .apb2enr 20, .set .apb2rstr 20, .clear .apb2rstr 20]

/-- The two APB buses of the comment at src/i2s.rs lines 282-288. -/
inductive Bus
  | apb1 | apb2
  deriving DecidableEq, Fintype, Repr

/-- The bus each peripheral's enable and reset bits live on, per the comment
at src/i2s.rs lines 282-288. -/
def commentBus : Periph → Bus
  | .SPI1 => .apb2
  | .SPI2 => .apb1
  | .SPI3 => .apb1
  | .SPI4 => .apb2
  | .SPI5 => .apb2

/-- The bit index of each peripheral in its ENR and RSTR registers, per the
comment at src/i2s.rs lines 282-288. -/
def commentBit : Periph → Nat
  | .SPI1 => 12
  | .SPI2 => 14
  | .SPI3 => 15
  | .SPI4 => 13
  | .SPI5 => 20

/-- The clock enable register of a bus. -/
def enrOf : Bus → Reg
  | .apb1 => .apb1enr
  | .apb2 => .apb2enr

/-- The peripheral reset register of a bus. -/
def rstrOf : Bus → Reg
  | .apb1 => .apb1rstr
  | .apb2 => .apb2rstr

namespace bb

/-- Modelled from the spec: the crate's bb module (src/bb.rs, not under
src/ here) supplies the atomic single-bit register primitives. Spec 4.3:
each step is an atomic single-bit modification of a multi-bit shared
register; other bits in the same register must be left unchanged. bb::set
turns bit b of the register value on and changes nothing else. -/
def set (b : Nat) (x : Nat) : Nat := x ||| 2 ^ b

/-- Modelled from the spec: bb::clear turns bit b of the register value off
and changes nothing else (see bb.set). -/
def clear (b : Nat) (x : Nat) : Nat := x ^^^ (if x.testBit b then 2 ^ b else 0)

end bb

/-- The RCC clock control register block state: the four registers the
Enable impls touch, each a register value (a natural below 2 to the 32). -/
structure Rcc where
  apb1enr : Nat
  apb1rstr : Nat
  apb2enr : Nat
  apb2rstr : Nat
  deriving DecidableEq, Repr

/-- Read one register of the block. -/
def Rcc.read (s : Rcc) : Reg → Nat
  | .apb1enr => s.apb1enr
  | .apb1rstr => s.apb1rstr
  | .apb2enr => s.apb2enr
  | .apb2rstr => s.apb2rstr

/-- Replace one register of the block. -/
def Rcc.write (s : Rcc) (r : Reg) (x : Nat) : Rcc :=
  match r with
  | .apb1enr => { s with apb1enr := x }
  | .apb1rstr => { s with apb1rstr := x }
  | .apb2enr => { s with apb2enr := x }
  | .apb2rstr => { s with apb2rstr := x }

/-- Run one bb operation against the register block. -/
def applyOp (s : Rcc) : Op → Rcc
  | .set r b => s.write r (bb.set b (s.read r))
  | .clear r b => s.write r (bb.clear b (s.read r))

/-- Run a list of bb operations in order. -/
def runOps (s : Rcc) (ops : List Op) : Rcc :=
  ops.foldl applyOp s

/-- Whether the registry has any word select fact for (variant, peripheral):
the registry declares the peripheral as I2S-capable on that variant. -/
def wsAvail (v : Variant) (spi : Periph) : Bool :=
  wsFacts.any fun f => decide (v ∈ f.variants) && f.periph == spi

/-- Pairwise non-contradiction of a fact list: two facts for the same
(peripheral, pin) that are both active on some common variant agree on the
alternate function index. -/
def pairwiseConsistent (facts : List Fact) : Bool :=
  facts.all fun f => facts.all fun g =>
    !(f.periph == g.periph && f.pin == g.pin &&
      decide (∃ v ∈ f.variants, v ∈ g.variants)) || f.af == g.af

/-- Reading after writing the register block: the written register holds the
new value, every other register is untouched. -/
theorem Rcc.read_write (s : Rcc) (r r' : Reg) (x : Nat) :
    (s.write r x).read r' = if r' = r then x else s.read r' := by
  cases r <;> cases r' <;> simp [Rcc.write, Rcc.read]

/-- Setting one bit leaves every other bit of the register value unchanged. -/
theorem bb.set_testBit_ne (b i x : Nat) (h : i ≠ b) :
    (bb.set b x).testBit i = x.testBit i := by
  simp [bb.set, Nat.testBit_lor, Nat.testBit_two_pow_of_ne (Ne.symm h)]

/-- Clearing one bit leaves every other bit of the register value unchanged. -/
theorem bb.clear_testBit_ne (b i x : Nat) (h : i ≠ b) :
    (bb.clear b x).testBit i = x.testBit i := by
  unfold bb.clear
  by_cases hb : x.testBit b
  · simp [hb, Nat.testBit_xor, Nat.testBit_two_pow_of_ne (Ne.symm h)]
  · simp [hb]

/-- One bb operation leaves every (register, bit) other than its target
unchanged. -/
theorem applyOp_testBit_ne (s : Rcc) (op : Op) (r : Reg) (i : Nat)
    (h : (r, i) ≠ op.target) :
    ((applyOp s op).read r).testBit i = (s.read r).testBit i := by
  cases op with
  | set r2 b =>
    simp only [applyOp, Op.target] at h ⊢
    rw [Rcc.read_write]
    by_cases hr : r = r2
    · subst hr
      rw [if_pos rfl]
      exact bb.set_testBit_ne b i _ fun hib => h (by rw [hib])
    · rw [if_neg hr]
  | clear r2 b =>
    simp only [applyOp, Op.target] at h ⊢
    rw [Rcc.read_write]
    by_cases hr : r = r2
    · subst hr
      rw [if_pos rfl]
      exact bb.clear_testBit_ne b i _ fun hib => h (by rw [hib])
    · rw [if_neg hr]

/-- Running a list of bb operations leaves every (register, bit) pair that
is the target of none of them unchanged. -/
theorem runOps_frame (ops : List Op) (s : Rcc) (r : Reg) (i : Nat)
    (h : (r, i) ∉ ops.map Op.target) :
    ((runOps s ops).read r).testBit i = (s.read r).testBit i := by
  induction ops generalizing s with
  | nil => rfl
  | cons op rest ih =>
    simp only [List.map_cons, List.mem_cons, not_or] at h
    show ((runOps (applyOp s op) rest).read r).testBit i = (s.read r).testBit i
    rw [ih (applyOp s op) h.2, applyOp_testBit_ne s op r i h.1]

/-- Unfolding a capability lookup into the fact it stems from. -/
theorem holdsFor_iff (facts : List Fact) (v : Variant) (spi : Periph) (q : AltPin) :
    holdsFor facts v spi q = true ↔
      ∃ f ∈ facts, v ∈ f.variants ∧ f.periph = spi ∧ f.pin = q.pin ∧ f.af = q.af := by
  simp [holdsFor, List.any_eq_true, Bool.and_eq_true, and_assoc]

/-- A pairwise consistent fact list never assigns one pin two alternate
function indices for the same (variant, peripheral, role). -/
theorem pairwiseConsistent_sound (facts : List Fact)
    (hc : pairwiseConsistent facts = true) (v : Variant) (spi : Periph)
    (p : Pin) (a b : Fin 16)
    (ha : holdsFor facts v spi ⟨p, a⟩ = true)
    (hb : holdsFor facts v spi ⟨p, b⟩ = true) : a = b := by
  rcases (holdsFor_iff facts v spi ⟨p, a⟩).1 ha with ⟨f, hf, hfv, hfp, hfpin, hfa⟩
  rcases (holdsFor_iff facts v spi ⟨p, b⟩).1 hb with ⟨g, hg, hgv, hgp, hgpin, hga⟩
  have hrow := List.all_eq_true.mp (List.all_eq_true.mp hc f hf) g hg
  rcases Bool.or_eq_true_iff.mp hrow with hguard | haf
  · exfalso
    have htrue : (f.periph == g.periph && f.pin == g.pin &&
        decide (∃ w ∈ f.variants, w ∈ g.variants)) = true := by
      rw [Bool.and_eq_true, Bool.and_eq_true]
      exact ⟨⟨beq_iff_eq.mpr (hfp.trans hgp.symm),
              beq_iff_eq.mpr (hfpin.trans hgpin.symm)⟩,
             decide_eq_true ⟨v, hfv, hgv⟩⟩
    rw [htrue] at hguard
    simp at hguard
  · have haf2 : f.af = g.af := beq_iff_eq.mp haf
    have ha2 : f.af = a := hfa
    have hb2 : g.af = b := hga
    rw [← ha2, ← hb2]
    exact haf2

/-- A word select fact for (variant, peripheral) is only ever declared when
the cfg-gated module holding that peripheral's Enable and NoMasterClock
impls is also compiled in. -/
theorem wsFacts_within_gate :
    (wsFacts.all fun f => f.variants.all fun v =>
      decide (v ∈ spiModGate f.periph)) = true := by decide

/-- Any valid word select pin for (variant, peripheral) means the
peripheral's module is compiled, so NoMasterClock implements PinMck there. -/
theorem wsImpliesGate (v : Variant) (spi : Periph) (q : AltPin)
    (h : PinWs v spi q = true) : noMasterClockPinMck v spi = true := by
  rcases (holdsFor_iff wsFacts v spi q).1 h with ⟨f, hf, hv, hp, -, -⟩
  have hg := List.all_eq_true.mp (List.all_eq_true.mp wsFacts_within_gate f hf) v hv
  rw [noMasterClockPinMck, ← hp]
  exact hg

/-- A capability function granting only the data line role for SPI1 to
PA7 in alternate function 5: the shape of a PinMosi-only pin of the
underlying SPI driver, used for the rejected word select scenario. -/
def mosiOnlyPa7 : Periph → AltPin → Bool :=
  fun spi q => spi == .SPI1 && q == ⟨.PA7, 5⟩

/-- C1: for every peripheral instance, enable issues exactly three register
operations in fixed order: set the clock enable bit in the enable register
of its bus, set the reset bit in the reset register of that bus, then clear
that same reset bit; the bus and bit index agree with the table in the
comment at src/i2s.rs lines 282-288, and no step is skipped or reordered. -/
theorem C1_enable_three_ops_in_order :
    ∀ spi : Periph,
      enable spi =
        [Op.set (enrOf (commentBus spi)) (commentBit spi),
         Op.set (rstrOf (commentBus spi)) (commentBit spi),
         Op.clear (rstrOf (commentBus spi)) (commentBit spi)] := by
  decide

/-- C2: a pin tuple satisfies the Pins validator exactly when each of the
four positions has the capability for its claimed role against the
peripheral, the NoMasterClock placeholder standing in for the master clock
slot; and a pin whose only capability is the data line role for SPI1,
supplied in the word select slot, is rejected whatever fills the other
slots. -/
theorem C2_pins_iff_capabilities :
    (∀ (mosi sck : Periph → AltPin → Bool) (v : Variant) (spi : Periph)
        (ws ck : AltPin) (mclk : MckArg) (sd : AltPin),
      Pins mosi sck v spi ws ck mclk sd = true ↔
        (PinWs v spi ws = true ∧ PinCk sck spi ck = true ∧
         PinMckArg v spi mclk = true ∧ PinSd mosi spi sd = true)) ∧
    (PinSd mosiOnlyPa7 .SPI1 ⟨.PA7, 5⟩ = true ∧
     ∀ (sck : Periph → AltPin → Bool) (ck : AltPin) (mclk : MckArg) (sd : AltPin),
       Pins mosiOnlyPa7 sck .stm32f411 .SPI1 ⟨.PA7, 5⟩ ck mclk sd = false) := by
  refine ⟨fun mosi sck v spi ws ck mclk sd => ?_, by decide, fun sck ck mclk sd => ?_⟩
  · simp [Pins, Bool.and_eq_true, and_assoc]
  · have hws : PinWs .stm32f411 .SPI1 ⟨.PA7, 5⟩ = false := by decide
    simp [Pins, hws]

/-- C3: enable touches only the target (register, bit) pairs of its own
three operations; every other bit of the four RCC registers keeps its
value through all three steps, and the targets of two distinct peripheral
instances never overlap, so the bits of every other peripheral are left
unchanged. -/
theorem C3_enable_frame :
    (∀ (spi : Periph) (s : Rcc) (r : Reg) (i : Nat),
        (r, i) ∉ (enable spi).map Op.target →
        ((runOps s (enable spi)).read r).testBit i = (s.read r).testBit i) ∧
    (∀ spi spi2 : Periph, spi ≠ spi2 →
        ((enable spi).map Op.target).all
          (fun t => !(((enable spi2).map Op.target).contains t)) = true) := by
  refine ⟨fun spi s r i h => runOps_frame (enable spi) s r i h, by decide⟩

/-- C4 counterexample: enable on SPI2 does not produce the sequence the
claim states; its reset pulses are on bit 14 of APB1RSTR, not bit 15. -/
theorem C4_counterexample_spi2_reset_not_bit15 :
    enable .SPI2 ≠
      [Op.set .apb1enr 14, Op.set .apb1rstr 15, Op.clear .apb1rstr 15] := by
  decide

/-- C4 amended: enable on SPI2 produces exactly set bit 14 of APB1ENR, set
bit 14 of APB1RSTR, clear bit 14 of APB1RSTR; its enable bit and reset bit
are both bit 14, while bit 15 is the bit of SPI3. -/
theorem C4_spi2_enable_and_reset_bit14 :
    enable .SPI2 =
      [Op.set .apb1enr 14, Op.set .apb1rstr 14, Op.clear .apb1rstr 14] ∧
    (enable .SPI2).map Op.bitIdx = [14, 14, 14] ∧
    commentBit .SPI3 = 15 := by
  decide

/-- C5: the NoMasterClock placeholder is accepted in the master clock slot
whenever the word select pin is valid for the peripheral on the variant
(the placeholder impl lives in the same cfg module as every registry
entry), so a bundle with valid WS, CK and SD pins and an absent master
clock always passes the Pins validator. -/
theorem C5_no_master_clock_accepted
    (mosi sck : Periph → AltPin → Bool) (v : Variant) (spi : Periph)
    (ws ck sd : AltPin)
    (hws : PinWs v spi ws = true)
    (hck : PinCk sck spi ck = true)
    (hsd : PinSd mosi spi sd = true) :
    Pins mosi sck v spi ws ck .noMasterClock sd = true := by
  have hg : noMasterClockPinMck v spi = true := wsImpliesGate v spi ws hws
  simp [Pins, PinMckArg, hws, hck, hsd, hg]

/-- C5 witness: on stm32f411, SPI4 (a peripheral with no master clock pin
fact at all) accepts a bundle with an absent master clock. -/
theorem C5_no_master_clock_accepted_witness :
    PinWs .stm32f411 .SPI4 ⟨.PE4, 5⟩ = true ∧
    (mckFacts.all fun f => !(f.periph == Periph.SPI4)) = true ∧
    Pins (fun _ _ => true) (fun _ _ => true) .stm32f411 .SPI4
      ⟨.PE4, 5⟩ ⟨.PB9, 5⟩ .noMasterClock ⟨.PB12, 5⟩ = true :=
  ⟨by decide, by decide,
   C5_no_master_clock_accepted (fun _ _ => true) (fun _ _ => true)
     .stm32f411 .SPI4 ⟨.PE4, 5⟩ ⟨.PB9, 5⟩ ⟨.PB12, 5⟩ (by decide) rfl rfl⟩

/-- C6 counterexample: the claim says PC7 and PB10 in alternate function 6
are master clock pins of SPI3 on the variants other than stm32f410, but on
stm32f401 the registry has no master clock fact at all for PB10 with
alternate function 6. -/
theorem C6_counterexample_pb10_f401 :
    Variant.stm32f401 ≠ Variant.stm32f410 ∧
    PinMck .stm32f401 .SPI3 ⟨.PB10, 6⟩ = false := by
  decide

set_option maxRecDepth 8192 in
/-- C6 amended: on stm32f410, SPI3 has no Enable impl and no word select or
master clock pin fact; PC7 and PB10 in alternate function 6 are master
clock pins of SPI1 there. On every other variant PC7 with alternate
function 6 is a master clock pin of SPI3 and not of SPI1, while PB10 with
alternate function 6 is a master clock pin of SPI3 exactly on stm32f411,
stm32f412, stm32f413 and stm32f423, and of SPI1 only on stm32f410. -/
theorem C6_f410_variant_differences :
    hasEnableImpl .stm32f410 .SPI3 = false ∧
    (∀ q : AltPin, PinWs .stm32f410 .SPI3 q = false) ∧
    (∀ q : AltPin, PinMck .stm32f410 .SPI3 q = false) ∧
    PinMck .stm32f410 .SPI1 ⟨.PC7, 6⟩ = true ∧
    PinMck .stm32f410 .SPI1 ⟨.PB10, 6⟩ = true ∧
    (∀ v : Variant, v ≠ .stm32f410 →
      PinMck v .SPI3 ⟨.PC7, 6⟩ = true ∧ PinMck v .SPI1 ⟨.PC7, 6⟩ = false ∧
      PinMck v .SPI1 ⟨.PB10, 6⟩ = false) ∧
    (∀ v : Variant, PinMck v .SPI3 ⟨.PB10, 6⟩ = true ↔
      (v = .stm32f411 ∨ v = .stm32f412 ∨ v = .stm32f413 ∨ v = .stm32f423)) := by
  decide

/-- C7: the registry is non-contradictory on every variant: a pin never
carries two different alternate function indices for the same (variant,
peripheral, role), neither in the word select table nor in the master
clock table. -/
theorem C7_registry_non_contradictory :
    (∀ (v : Variant) (spi : Periph) (p : Pin) (a b : Fin 16),
        PinWs v spi ⟨p, a⟩ = true → PinWs v spi ⟨p, b⟩ = true → a = b) ∧
    (∀ (v : Variant) (spi : Periph) (p : Pin) (a b : Fin 16),
        PinMck v spi ⟨p, a⟩ = true → PinMck v spi ⟨p, b⟩ = true → a = b) := by
  constructor
  · intro v spi p a b ha hb
    exact pairwiseConsistent_sound wsFacts (by decide) v spi p a b ha hb
  · intro v spi p a b ha hb
    exact pairwiseConsistent_sound mckFacts (by decide) v spi p a b ha hb

/-- C8: enable has no error path and total coverage: the Enable impl is
compiled in exactly for the (variant, peripheral) pairs the registry
declares I2S-capable through a word select fact, and for every peripheral
the operation list is defined and is the full three-step sequence, with no
error value anywhere in its type. -/
theorem C8_enable_total_no_error :
    (∀ (v : Variant) (spi : Periph), hasEnableImpl v spi = wsAvail v spi) ∧
    (∀ spi : Periph, (enable spi).length = 3) := by
  decide

/-- C9: serial data and bit clock capabilities are inherited wholesale from
the SPI driver facts by the blanket impls, while word select and master
clock hold only through an explicitly enumerated fact of the registry. -/
theorem C9_sd_ck_blanket_ws_mck_enumerated :
    (∀ (mosi : Periph → AltPin → Bool) (spi : Periph) (q : AltPin),
        mosi spi q = true → PinSd mosi spi q = true) ∧
    (∀ (sck : Periph → AltPin → Bool) (spi : Periph) (q : AltPin),
        sck spi q = true → PinCk sck spi q = true) ∧
    (∀ (v : Variant) (spi : Periph) (q : AltPin),
        PinWs v spi q = true →
          ∃ f ∈ wsFacts, v ∈ f.variants ∧ f.periph = spi ∧
            f.pin = q.pin ∧ f.af = q.af) ∧
    (∀ (v : Variant) (spi : Periph) (q : AltPin),
        PinMck v spi q = true →
          ∃ f ∈ mckFacts, v ∈ f.variants ∧ f.periph = spi ∧
            f.pin = q.pin ∧ f.af = q.af) :=
  ⟨fun _ _ _ h => h, fun _ _ _ h => h,
   fun v spi q h => (holdsFor_iff wsFacts v spi q).1 h,
   fun v spi q h => (holdsFor_iff mckFacts v spi q).1 h⟩

/-- C10: the concrete bit assignments: SPI1, SPI4 and SPI5 use bits 12, 13
and 20 of APB2ENR and APB2RSTR, SPI2 and SPI3 use bits 14 and 15 of
APB1ENR and APB1RSTR; for each peripheral the enable bit and the reset bit
share one index and the enable and reset registers share one bus, and the
operation lists carry no variant dependence at all. -/
theorem C10_bit_assignments :
    enable .SPI1 = [Op.set .apb2enr 12, Op.set .apb2rstr 12, Op.clear .apb2rstr 12] ∧
    enable .SPI2 = [Op.set .apb1enr 14, Op.set .apb1rstr 14, Op.clear .apb1rstr 14] ∧
    enable .SPI3 = [Op.set .apb1enr 15, Op.set .apb1rstr 15, Op.clear .apb1rstr 15] ∧
    enable .SPI4 = [Op.set .apb2enr 13, Op.set .apb2rstr 13, Op.clear .apb2rstr 13] ∧
    enable .SPI5 = [Op.set .apb2enr 20, Op.set .apb2rstr 20, Op.clear .apb2rstr 20] := by
  decide

end I2s
